import Mathlib

/-!
Verification of the HTTP resource-loading core of the servo network stack
(the `load` function of `net::http_loader` together with its HSTS list,
cookie jar, content decoder and devtools notification behaviour).

The repository snapshot contains the unit tests of the loader
(`tests/unit/net/http_loader.rs`) but not the loader implementation itself,
so the loader and its collaborators are modelled from the specification:
each `Modelled from the spec:` definition names the missing piece of code it
stands in for.  Byte streams are `List Nat`, URLs are a scheme/host/path
record, and the pluggable transport (`HttpRequestFactory` / `HttpRequest` /
`HttpResponse`) is a function from URL and method to either a `LoadError`
or a canned `Response`, exactly the shape the test doubles take.
-/

deriving instance DecidableEq for Except

/-- Character lowering for ASCII, used for case-insensitive header and
directive comparisons. -/
def lowerChar (c : Char) : Char :=
  if 'A' ≤ c ∧ c ≤ 'Z' then Char.ofNat (c.toNat + 32) else c

/-- String lowering for ASCII. -/
def lowerStr (s : String) : String := String.mk (s.data.map lowerChar)

/-- Split a string at every occurrence of the character `c`. -/
def splitOnChar (c : Char) (s : String) : List String :=
  (s.data.foldr
    (fun ch acc =>
      match acc with
      | [] => [[ch]]
      | cur :: rest => if ch = c then [] :: cur :: rest else (ch :: cur) :: rest)
    [[]]).map String.mk

/-- Trim leading and trailing spaces. -/
def trimStr (s : String) : String :=
  String.mk
    (((s.data.dropWhile (fun c => decide (c = ' '))).reverse.dropWhile
        (fun c => decide (c = ' '))).reverse)

/-- Parse a decimal number from a character list; `none` if empty or any
character is not a digit. -/
def strToNat (cs : List Char) : Option Nat :=
  if cs.isEmpty then none
  else
    cs.foldl
      (fun acc c =>
        match acc with
        | none => none
        | some n => if '0' ≤ c ∧ c ≤ '9' then some (n * 10 + (c.toNat - '0'.toNat)) else none)
      (some 0)

/-- Modelled from the spec: the URL record the loader manipulates (the
`url::Url` values of the missing `net::http_loader` code).  A hierarchical
URL `scheme://host/path` has all three fields; a non-relative URL such as
`view-source:ftp://not-supported` keeps the inner text in `path` with an
empty `host`. -/
structure Url where
  scheme : String
  host : String
  path : String
deriving DecidableEq, Repr

/-- Modelled from the spec: URL parsing (delegated to the `url` crate by the
missing loader code).  Recognises `scheme://host/path` and the non-relative
`scheme:rest` form; anything without a scheme is not an absolute URL. -/
def parseUrlString (s : String) : Option Url :=
  let cs := s.data
  let scheme := cs.takeWhile (fun ch => decide (ch ≠ ':'))
  let rest := cs.dropWhile (fun ch => decide (ch ≠ ':'))
  match rest with
  | ':' :: after =>
    if scheme.isEmpty ∨ scheme.contains '/' then none
    else
      match after with
      | '/' :: '/' :: hier =>
        let host := hier.takeWhile (fun ch => decide (ch ≠ '/'))
        let path := hier.dropWhile (fun ch => decide (ch ≠ '/'))
        if host.isEmpty then none
        else some ⟨String.mk scheme, String.mk host, if path.isEmpty then "/" else String.mk path⟩
      | _ => some ⟨String.mk scheme, "", String.mk after⟩
  | _ => none

/-- HTTP methods (the subset of `hyper::method::Method` the loader policy
distinguishes, plus an escape hatch for the rest). -/
inductive Method where
  | get
  | head
  | post
  | put
  | delete
  | options
  | other (s : String)
deriving DecidableEq, Repr

/-- A header set: name/value pairs with case-insensitive names (the shape of
`hyper::header::Headers`). -/
abbrev Headers := List (String × String)

/-- Case-insensitive header lookup. -/
def getHeader (hs : Headers) (name : String) : Option String :=
  (hs.find? fun p => decide (lowerStr p.1 = lowerStr name)).map Prod.snd

/-- Set a header, replacing any entry with the same (case-insensitive) name. -/
def setHeader (hs : Headers) (name value : String) : Headers :=
  (name, value) :: hs.filter fun p => decide (¬ lowerStr p.1 = lowerStr name)

/-- Whether a header with the given name is present. -/
def hasHeader (hs : Headers) (name : String) : Bool :=
  (getHeader hs name).isSome

/-- The error taxonomy of the loader (`LoadError` in `net::http_loader`). -/
inductive LoadError where
  | UnsupportedScheme (url : Url)
  | Connection (url : Url) (msg : String)
  | InvalidRedirect (url : Url) (reason : String)
  | MaxRedirects (url : Url)
deriving DecidableEq, Repr

/-- A transport response: status code, header set and body bytes (the
`HttpResponse` capability of the transport abstraction). -/
structure Response where
  status : Nat
  headers : Headers
  body : List Nat
deriving DecidableEq, Repr

/-- Modelled from the spec: the `HttpRequestFactory`/`HttpRequest` capability
pair of the missing transport abstraction, collapsed to one function.
`create(url, method)` either fails with a `LoadError` or yields a request
whose `send` returns the canned `Response` — exactly what the repository's
test doubles do. -/
abbrev Factory := Url → Method → Except LoadError Response

/-- An HSTS registry entry (`HSTSEntry` of the missing `net::hsts`). -/
structure HstsEntry where
  host : String
  includeSubdomains : Bool
deriving DecidableEq, Repr

/-- The HSTS list shared across loads. -/
abbrev HstsList := List HstsEntry

/-- Modelled from the spec: `HSTSList::is_host_secure` — true iff an entry
for the host, or an ancestor domain entry with `includeSubdomains`, is
registered. -/
def isHostSecure (l : HstsList) (host : String) : Bool :=
  l.any fun e =>
    decide (e.host = host) ||
      (e.includeSubdomains && ("." ++ e.host).data.isSuffixOf host.data)

/-- Parse the `max-age=<seconds>` directive of a `Strict-Transport-Security`
header value; `none` when absent or non-numeric. -/
def parseMaxAge (value : String) : Option Nat :=
  ((splitOnChar ';' value).map trimStr).findSome? fun p =>
    let lp := lowerStr p
    if "max-age=".data.isPrefixOf lp.data then strToNat (lp.data.drop 8) else none

/-- Whether the header value carries the case-insensitive `includeSubDomains`
token. -/
def hasIncludeSubdomains (value : String) : Bool :=
  ((splitOnChar ';' value).map trimStr).any fun p =>
    decide (lowerStr p = "includesubdomains")

/-- Modelled from the spec: `HSTSList` update from a response header — a
no-op unless the origin that produced the header was HTTPS; otherwise parse
`max-age` (ignore the header if absent or non-numeric) and the optional
`includeSubDomains` token, and upsert the entry. -/
def recordFromHeader (l : HstsList) (host value : String) (originWasHttps : Bool) : HstsList :=
  if originWasHttps then
    match parseMaxAge value with
    | some _ =>
        ⟨host, hasIncludeSubdomains value⟩ :: l.filter fun e => decide (¬ e.host = host)
    | none => l
  else l

/-- Where a cookie write originates (`CookieSource` of `net_traits`). -/
inductive CookieSource where
  | http
  | nonHTTP
deriving DecidableEq, Repr

/-- A stored cookie (the fields of `net::cookie::Cookie` the jar policy
consults). -/
structure Cookie where
  name : String
  value : String
  domain : String
  path : String
  secure : Bool
  httpOnly : Bool
deriving DecidableEq, Repr

/-- The cookie jar shared across loads. -/
abbrev CookieJar := List Cookie

/-- Whether a cookie matches a URL: domain, path prefix and secure-flag
constraints. -/
def cookieMatches (c : Cookie) (u : Url) : Bool :=
  decide (c.domain = u.host) && c.path.data.isPrefixOf u.path.data &&
    (!c.secure || decide (u.scheme = "https"))

/-- Join cookie pairs with the `"; "` separator. -/
def joinCookies : List String → String
  | [] => ""
  | [s] => s
  | s :: rest => s ++ "; " ++ joinCookies rest

/-- Modelled from the spec: `CookieStorage::cookies_for_url` — `none` when no
cookie matches the URL's domain/path/scheme constraints, otherwise the
matches formatted as a single `name=value; name2=value2` header value. -/
def cookiesForUrl (jar : CookieJar) (u : Url) (source : CookieSource) : Option String :=
  let ms := jar.filter fun c => cookieMatches c u && (!c.httpOnly || decide (source = CookieSource.http))
  if ms.isEmpty then none
  else some (joinCookies (ms.map fun c => c.name ++ "=" ++ c.value))

/-- Modelled from the spec: `CookieStorage::push` — rejects an httpOnly
cookie when the source is not HTTP, otherwise replaces the entry keyed by
(domain, path, name). -/
def pushCookie (jar : CookieJar) (c : Cookie) (source : CookieSource) : CookieJar :=
  if c.httpOnly ∧ ¬ source = CookieSource.http then jar
  else
    c :: jar.filter fun e =>
      decide (¬ (e.domain = c.domain ∧ e.path = c.path ∧ e.name = c.name))

/-- Modelled from the spec: a minimal reading of a `Set-Cookie` response
header value (`name=value`, attributes after `;` ignored), attributed to the
response URL's host. -/
def cookieFromSetCookie (u : Url) (v : String) : Cookie :=
  let pair := trimStr ((splitOnChar ';' v).headD v)
  let name := pair.data.takeWhile fun ch => decide (ch ≠ '=')
  let rest := pair.data.dropWhile fun ch => decide (ch ≠ '=')
  match rest with
  | '=' :: value => ⟨String.mk name, String.mk value, u.host, "/", false, false⟩
  | _ => ⟨pair, "", u.host, "/", false, false⟩

/-- The compression transform named by `Content-Encoding`. -/
inductive ContentEncoding where
  | gzip
  | deflate
  | identity
deriving DecidableEq, Repr

/-- Modelled from the spec: the Content Decoder's selection rule — inspect
`Content-Encoding` case-insensitively; `gzip` and `deflate` select the
matching decompressor, any other value or an absent header passes the
stream through unchanged. -/
def selectEncoding (hs : Headers) : ContentEncoding :=
  match getHeader hs "Content-Encoding" with
  | some v =>
      if lowerStr v = "gzip" then ContentEncoding.gzip
      else if lowerStr v = "deflate" then ContentEncoding.deflate
      else ContentEncoding.identity
  | none => ContentEncoding.identity

/-- The pair of decompression transforms the decoder can wrap a stream with.
The transforms themselves live in the external `flate2` crate; the loader
only selects between them. -/
structure Codec where
  gzipDecompress : List Nat → List Nat
  deflateDecompress : List Nat → List Nat

/-- Apply the selected decompression transform to a response body. -/
def decodeBody (c : Codec) (hs : Headers) (body : List Nat) : List Nat :=
  match selectEncoding hs with
  | ContentEncoding.gzip => c.gzipDecompress body
  | ContentEncoding.deflate => c.deflateDecompress body
  | ContentEncoding.identity => body

/-- A devtools observability event (`NetworkEvent` of `devtools_traits`). -/
inductive NetworkEvent where
  | httpRequest (url : Url) (method : Method) (headers : Headers) (body : Option (List Nat))
  | httpResponse (headers : Headers) (status : Nat)
deriving DecidableEq, Repr

/-- The caller's request descriptor (`LoadData` of `net_traits`). -/
structure LoadData where
  url : Url
  method : Method
  headers : Headers
  data : Option (List Nat)
deriving DecidableEq, Repr

/-- The observable record of one hop of a load: the URL, method and
assembled headers of the request, the body carried by the descriptor at
that hop, the body actually passed to `send`, and the response metadata. -/
structure HopRecord where
  url : Url
  method : Method
  headers : Headers
  descriptorBody : Option (List Nat)
  sentBody : Option (List Nat)
  respStatus : Nat
  respHeaders : Headers
deriving DecidableEq, Repr

instance : Inhabited HopRecord :=
  ⟨⟨⟨"", "", ""⟩, Method.get, [], none, none, 0, []⟩⟩

/-- Everything a load makes observable besides its result: the hops it
performed, the factory invocations, the devtools events in emission order,
and the final shared HSTS/cookie state. -/
structure LoadTrace where
  hops : List HopRecord
  creates : List (Url × Method)
  events : List NetworkEvent
  hsts : HstsList
  jar : CookieJar
deriving DecidableEq, Repr

/-- The result of a load together with its trace. -/
structure LoadOutcome where
  result : Except LoadError (List Nat)
  trace : LoadTrace
deriving DecidableEq, Repr

/-- The per-load constants: transport factory, decoder codec, user agent,
the caller's headers and method, and whether a devtools sink is present. -/
structure LoadCtx where
  factory : Factory
  codec : Codec
  userAgent : String
  origHeaders : Headers
  origMethod : Method
  hasSink : Bool

/-- The loop state of a load: current URL, method and body, whether this is
the first hop, the URLs already visited in this chain, and the shared
HSTS/cookie state. -/
structure LoopState where
  url : Url
  method : Method
  body : Option (List Nat)
  firstHop : Bool
  visited : List Url
  hsts : HstsList
  jar : CookieJar

/-- The default `Accept` header value of the loader. -/
def defaultAccept : String :=
  "text/html, application/xhtml+xml, application/xml; q=0.9, */*; q=0.8"

/-- Apply a default header value only when the caller has not already set
the header explicitly. -/
def withDefault (hs : Headers) (name value : String) : Headers :=
  if hasHeader hs name then hs else setHeader hs name value

/-- Attach the cookie-jar lookup as the `Cookie` header, only on a
non-empty match. -/
def withCookie (hs : Headers) (jar : CookieJar) (url : Url) : Headers :=
  match cookiesForUrl jar url CookieSource.http with
  | some c => withDefault hs "Cookie" c
  | none => hs

/-- Attach the computed `Content-Length` header: the decimal length of the
body when one is present, `"0"` when there is none and the method is not
GET/HEAD (the in-repo tests pin that a present body yields its length even
for GET). -/
def withContentLength (hs : Headers) (method : Method) (body : Option (List Nat)) : Headers :=
  match body with
  | some data => withDefault hs "Content-Length" (toString data.length)
  | none =>
      if method = Method.get ∨ method = Method.head then hs
      else withDefault hs "Content-Length" "0"

/-- Modelled from the spec: per-hop header assembly of the missing loader.
Caller-supplied headers take precedence; the defaults are the `Accept` and
`Accept-Encoding` values, the user agent string, the cookie-jar lookup and
the computed `Content-Length`. -/
def assembleHeaders (caller : Headers) (jar : CookieJar) (url : Url) (method : Method)
    (body : Option (List Nat)) (userAgent : String) : Headers :=
  withContentLength
    (withCookie
      (withDefault
        (withDefault (withDefault caller "User-Agent" userAgent) "Accept" defaultAccept)
        "Accept-Encoding" "gzip, deflate")
      jar url)
    method body

/-- Modelled from the spec: the HSTS upgrade step — an `http` URL whose host
has a secure entry is rewritten to `https` in place. -/
def upgradeUrl (hsts : HstsList) (u : Url) : Url :=
  if u.scheme = "http" ∧ isHostSecure hsts u.host then { u with scheme := "https" } else u

/-- Whether a URL's scheme is directly supported. -/
def schemeOk (u : Url) : Bool :=
  decide (u.scheme = "http") || decide (u.scheme = "https")

/-- Modelled from the spec: scheme validation — `http` and `https` URLs are
requested as they are; a `view-source:` wrapper is accepted only if its
inner URL parses with an http/https scheme, in which case the inner URL is
what gets requested; everything else is rejected. -/
def requestUrlFor (u : Url) : Option Url :=
  if u.scheme = "view-source" then
    match parseUrlString u.path with
    | some inner => if schemeOk inner then some inner else none
    | none => none
  else if schemeOk u then some u else none

/-- Modelled from the spec: resolution of a `Location` header value against
the current URL — an absolute URL stands alone, an absolute path replaces
the current path, anything else is unparsable. -/
def resolveLocation (base : Url) (loc : String) : Option Url :=
  match parseUrlString loc with
  | some u => some u
  | none =>
      if loc.data.headD ' ' = '/' then some { base with path := loc } else none

/-- The redirect status class the loader follows. -/
def isRedirectStatus (s : Nat) : Bool :=
  decide (s = 301) || decide (s = 302) || decide (s = 303) ||
    decide (s = 307) || decide (s = 308)

/-- The `Location` value a response redirects to, when its status is in the
redirect class. -/
def redirectTargetOf (resp : Response) : Option String :=
  if isRedirectStatus resp.status then getHeader resp.headers "Location" else none

/-- Modelled from the spec: the redirect method/body rewrite — for status
303, or for 301/302 when the original method was POST, the next hop uses
GET with no body; otherwise (307/308 in particular) method and body are
preserved exactly. -/
def redirectMethodBody (origMethod : Method) (status : Nat) (method : Method)
    (body : Option (List Nat)) : Method × Option (List Nat) :=
  if status = 303 ∨ ((status = 301 ∨ status = 302) ∧ origMethod = Method.post)
  then (Method.get, none)
  else (method, body)

/-- The hop record produced once a hop's request has been sent. -/
def hopRecordOf (ctx : LoadCtx) (st : LoopState) (requestUrl : Url) (resp : Response) :
    HopRecord :=
  { url := requestUrl, method := st.method,
    headers := assembleHeaders ctx.origHeaders st.jar requestUrl st.method st.body ctx.userAgent,
    descriptorBody := st.body,
    sentBody := if st.firstHop then st.body else none,
    respStatus := resp.status, respHeaders := resp.headers }

/-- The devtools events a hop emits when a sink is present: the mirrored
request metadata, then the response metadata. -/
def eventsOf (ctx : LoadCtx) (st : LoopState) (requestUrl : Url) (resp : Response) :
    List NetworkEvent :=
  if ctx.hasSink then
    [NetworkEvent.httpRequest requestUrl st.method ctx.origHeaders st.body,
     NetworkEvent.httpResponse resp.headers resp.status]
  else []

/-- The HSTS list after feeding a hop's response headers to it. -/
def hstsAfterOf (st : LoopState) (requestUrl : Url) (resp : Response) : HstsList :=
  match getHeader resp.headers "Strict-Transport-Security" with
  | some v => recordFromHeader st.hsts requestUrl.host v (decide (requestUrl.scheme = "https"))
  | none => st.hsts

/-- The cookie jar after pushing a hop's `Set-Cookie` header (source HTTP). -/
def jarAfterOf (st : LoopState) (requestUrl : Url) (resp : Response) : CookieJar :=
  match getHeader resp.headers "Set-Cookie" with
  | some v => pushCookie st.jar (cookieFromSetCookie requestUrl v) CookieSource.http
  | none => st.jar

/-- The trace of a load that ends (successfully or not) at the current hop,
after the request was sent. -/
def singleHopTraceOf (ctx : LoadCtx) (st : LoopState) (requestUrl : Url) (resp : Response) :
    LoadTrace :=
  ⟨[hopRecordOf ctx st requestUrl resp], [(requestUrl, st.method)],
   eventsOf ctx st requestUrl resp, hstsAfterOf st requestUrl resp, jarAfterOf st requestUrl resp⟩

/-- What one hop does: either the whole load terminates here, or the hop
followed a redirect and hands the loop a new state. -/
inductive HopStep where
  | done (out : LoadOutcome)
  | redirect (hop : HopRecord) (ev : List NetworkEvent) (created : Url × Method)
      (next : LoopState)

/-- Modelled from the spec: one hop of the missing loader's redirect loop —
HSTS upgrade, scheme validation (before the factory is invoked), header
assembly, factory create and send (body only on the first hop), devtools
notification, HSTS/cookie update, then the redirect decision: resolve the
`Location` value (unparsable means `InvalidRedirect "invalid location"`),
refuse a URL already visited in this chain (`InvalidRedirect
"redirect loop"`), otherwise rewrite method/body and continue; a
non-redirect response is decoded and returned. -/
def runHop (ctx : LoadCtx) (st : LoopState) : HopStep :=
  match requestUrlFor (upgradeUrl st.hsts st.url) with
  | none =>
      HopStep.done
        { result := Except.error (LoadError.UnsupportedScheme (upgradeUrl st.hsts st.url)),
          trace := ⟨[], [], [], st.hsts, st.jar⟩ }
  | some requestUrl =>
    match ctx.factory requestUrl st.method with
    | Except.error e =>
        HopStep.done
          { result := Except.error e,
            trace := ⟨[], [(requestUrl, st.method)], [], st.hsts, st.jar⟩ }
    | Except.ok resp =>
      match redirectTargetOf resp with
      | none =>
          HopStep.done
            { result := Except.ok (decodeBody ctx.codec resp.headers resp.body),
              trace := singleHopTraceOf ctx st requestUrl resp }
      | some loc =>
        match resolveLocation requestUrl loc with
        | none =>
            HopStep.done
              { result := Except.error (LoadError.InvalidRedirect requestUrl "invalid location"),
                trace := singleHopTraceOf ctx st requestUrl resp }
        | some nextUrl =>
          if nextUrl ∈ requestUrl :: st.visited then
            HopStep.done
              { result := Except.error (LoadError.InvalidRedirect requestUrl "redirect loop"),
                trace := singleHopTraceOf ctx st requestUrl resp }
          else
            HopStep.redirect (hopRecordOf ctx st requestUrl resp)
              (eventsOf ctx st requestUrl resp) (requestUrl, st.method)
              { url := nextUrl,
                method := (redirectMethodBody ctx.origMethod resp.status st.method st.body).1,
                body := (redirectMethodBody ctx.origMethod resp.status st.method st.body).2,
                firstHop := false, visited := requestUrl :: st.visited,
                hsts := hstsAfterOf st requestUrl resp,
                jar := jarAfterOf st requestUrl resp }

/-- Modelled from the spec: the bounded redirect loop of the missing loader.
The `fuel` argument is the number of redirects the load may still follow
(the configured maximum at the start); when a hop wants to follow a
redirect with no fuel left, the load fails with `MaxRedirects` carrying the
URL of that last hop. -/
def loadLoop (ctx : LoadCtx) : LoopState → Nat → LoadOutcome
  | st, 0 =>
    (match runHop ctx st with
     | HopStep.done out => out
     | HopStep.redirect hop ev created next =>
         { result := Except.error (LoadError.MaxRedirects hop.url),
           trace := ⟨[hop], [created], ev, next.hsts, next.jar⟩ })
  | st, fuel + 1 =>
    (match runHop ctx st with
     | HopStep.done out => out
     | HopStep.redirect hop ev created next =>
         let rest := loadLoop ctx next fuel
         { result := rest.result,
           trace := ⟨hop :: rest.trace.hops, created :: rest.trace.creates,
                     ev ++ rest.trace.events, rest.trace.hsts, rest.trace.jar⟩ })

/-- The loop state a load starts from. -/
def initState (ld : LoadData) (hsts : HstsList) (jar : CookieJar) : LoopState :=
  ⟨ld.url, ld.method, ld.data, true, [], hsts, jar⟩

/-- Modelled from the spec: the entry point
`load(descriptor, hstsState, cookieJar, eventSink?, factory, userAgent)` of
the missing `net::http_loader`, with the decoder codec and the configured
maximum redirect count made explicit parameters. -/
def load (ld : LoadData) (hsts : HstsList) (jar : CookieJar) (hasSink : Bool)
    (factory : Factory) (userAgent : String) (codec : Codec) (maxRedirects : Nat) :
    LoadOutcome :=
  loadLoop ⟨factory, codec, userAgent, ld.headers, ld.method, hasSink⟩
    (initState ld hsts jar) maxRedirects

/-- The event sequence a hop list should produce on the devtools channel:
per hop, exactly one `httpRequest` event followed by exactly one
`httpResponse` event. -/
def hopEvents (origHeaders : Headers) : List HopRecord → List NetworkEvent
  | [] => []
  | h :: t =>
      NetworkEvent.httpRequest h.url h.method origHeaders h.descriptorBody ::
        NetworkEvent.httpResponse h.respHeaders h.respStatus :: hopEvents origHeaders t

lemma find?_filter_keep (l : Headers) (n m : String) (hnm : ¬ lowerStr n = lowerStr m) :
    ((l.filter fun p => decide (¬ lowerStr p.1 = lowerStr n)).find?
        fun p => decide (lowerStr p.1 = lowerStr m)) =
      l.find? fun p => decide (lowerStr p.1 = lowerStr m) := by
  induction l with
  | nil => rfl
  | cons a t ih =>
      by_cases ha : lowerStr a.1 = lowerStr n
      · have hm : decide (lowerStr a.1 = lowerStr m) = false := by
          simp only [decide_eq_false_iff_not]
          exact fun h => hnm (ha ▸ h)
        have hfa : decide (¬ lowerStr a.1 = lowerStr n) = false := by simp [ha]
        simp only [List.filter_cons, List.find?_cons, hfa, hm, Bool.false_eq_true, if_false, ih]
      · have hfa : decide (¬ lowerStr a.1 = lowerStr n) = true := by simp [ha]
        cases hm : decide (lowerStr a.1 = lowerStr m) with
        | false => simp only [List.filter_cons, List.find?_cons, hfa, hm, if_true, ih]
        | true => simp only [List.filter_cons, List.find?_cons, hfa, hm, if_true]

lemma getHeader_setHeader_self (hs : Headers) (n v : String) :
    getHeader (setHeader hs n v) n = some v := by
  simp [getHeader, setHeader, List.find?_cons]

lemma getHeader_setHeader_ne (hs : Headers) (n v m : String)
    (hnm : ¬ lowerStr n = lowerStr m) :
    getHeader (setHeader hs n v) m = getHeader hs m := by
  have h0 : decide (lowerStr n = lowerStr m) = false := by simp [hnm]
  simp only [getHeader, setHeader, List.find?_cons, h0]
  rw [find?_filter_keep hs n m hnm]

lemma getHeader_withDefault_ne (hs : Headers) (n v m : String)
    (hnm : ¬ lowerStr n = lowerStr m) :
    getHeader (withDefault hs n v) m = getHeader hs m := by
  unfold withDefault
  split
  · rfl
  · exact getHeader_setHeader_ne hs n v m hnm

lemma getHeader_withCookie_ne (hs : Headers) (jar : CookieJar) (url : Url) (m : String)
    (hnm : ¬ lowerStr "Cookie" = lowerStr m) :
    getHeader (withCookie hs jar url) m = getHeader hs m := by
  unfold withCookie
  split
  · exact getHeader_withDefault_ne hs "Cookie" _ m hnm
  · rfl

/-- The headers a hop assembles leave the caller's `Content-Length` policy
visible: with no caller-supplied `Content-Length`, the assembled value is
the decimal body length when a body is present, `"0"` for a bodyless
non-GET/HEAD request, and absent for a bodyless GET/HEAD request. -/
lemma assembleHeaders_CL (caller : Headers) (jar : CookieJar) (url : Url) (method : Method)
    (body : Option (List Nat)) (ua : String)
    (hcl : hasHeader caller "Content-Length" = false) :
    getHeader (assembleHeaders caller jar url method body ua) "Content-Length" =
      match body with
      | some data => some (toString data.length)
      | none =>
          if method = Method.get ∨ method = Method.head then none else some "0" := by
  have hnone0 : getHeader caller "Content-Length" = none := by
    rcases hg : getHeader caller "Content-Length" with _ | v
    · rfl
    · unfold hasHeader at hcl
      rw [hg] at hcl
      simp at hcl
  unfold assembleHeaders
  set H := withCookie
      (withDefault
        (withDefault (withDefault caller "User-Agent" ua) "Accept" defaultAccept)
        "Accept-Encoding" "gzip, deflate") jar url with hH
  have hget : getHeader H "Content-Length" = none := by
    rw [hH, getHeader_withCookie_ne _ _ _ _ (by decide),
        getHeader_withDefault_ne _ _ _ _ (by decide),
        getHeader_withDefault_ne _ _ _ _ (by decide),
        getHeader_withDefault_ne _ _ _ _ (by decide), hnone0]
  have hhas : hasHeader H "Content-Length" = false := by
    unfold hasHeader
    rw [hget]
    rfl
  unfold withContentLength withDefault
  rw [hhas]
  cases body with
  | some data =>
      dsimp only
      simp only [Bool.false_eq_true, if_false]
      exact getHeader_setHeader_self _ _ _
  | none =>
      dsimp only
      split
      · exact hget
      · simp only [Bool.false_eq_true, if_false]
        exact getHeader_setHeader_self _ _ _
lemma loadLoop_done_any (ctx : LoadCtx) (st : LoopState) (fuel : Nat) (out : LoadOutcome)
    (h : runHop ctx st = HopStep.done out) : loadLoop ctx st fuel = out := by
  cases fuel <;> simp [loadLoop, h]

lemma runHop_unsupported (ctx : LoadCtx) (st : LoopState)
    (hreq : requestUrlFor (upgradeUrl st.hsts st.url) = none) :
    runHop ctx st = HopStep.done
      { result := Except.error (LoadError.UnsupportedScheme (upgradeUrl st.hsts st.url)),
        trace := ⟨[], [], [], st.hsts, st.jar⟩ } := by
  unfold runHop
  rw [hreq]

lemma runHop_terminal (ctx : LoadCtx) (st : LoopState) (resp : Response)
    (hup : upgradeUrl st.hsts st.url = st.url)
    (hreq : requestUrlFor st.url = some st.url)
    (hfac : ctx.factory st.url st.method = Except.ok resp)
    (ht : redirectTargetOf resp = none) :
    runHop ctx st = HopStep.done
      { result := Except.ok (decodeBody ctx.codec resp.headers resp.body),
        trace := singleHopTraceOf ctx st st.url resp } := by
  unfold runHop
  rw [hup, hreq]
  dsimp only
  rw [hfac]
  dsimp only
  rw [ht]

lemma runHop_invalid_location (ctx : LoadCtx) (st : LoopState) (resp : Response) (loc : String)
    (hup : upgradeUrl st.hsts st.url = st.url)
    (hreq : requestUrlFor st.url = some st.url)
    (hfac : ctx.factory st.url st.method = Except.ok resp)
    (ht : redirectTargetOf resp = some loc)
    (hres : resolveLocation st.url loc = none) :
    runHop ctx st = HopStep.done
      { result := Except.error (LoadError.InvalidRedirect st.url "invalid location"),
        trace := singleHopTraceOf ctx st st.url resp } := by
  unfold runHop
  rw [hup, hreq]
  dsimp only
  rw [hfac]
  dsimp only
  rw [ht]
  dsimp only
  rw [hres]

lemma runHop_loop (ctx : LoadCtx) (st : LoopState) (resp : Response) (loc : String)
    (nextUrl : Url)
    (hup : upgradeUrl st.hsts st.url = st.url)
    (hreq : requestUrlFor st.url = some st.url)
    (hfac : ctx.factory st.url st.method = Except.ok resp)
    (ht : redirectTargetOf resp = some loc)
    (hres : resolveLocation st.url loc = some nextUrl)
    (hmem : nextUrl ∈ st.url :: st.visited) :
    runHop ctx st = HopStep.done
      { result := Except.error (LoadError.InvalidRedirect st.url "redirect loop"),
        trace := singleHopTraceOf ctx st st.url resp } := by
  unfold runHop
  rw [hup, hreq]
  dsimp only
  rw [hfac]
  dsimp only
  rw [ht]
  dsimp only
  rw [hres]
  dsimp only
  rw [if_pos hmem]

lemma runHop_redirect (ctx : LoadCtx) (st : LoopState) (resp : Response) (loc : String)
    (nextUrl : Url)
    (hup : upgradeUrl st.hsts st.url = st.url)
    (hreq : requestUrlFor st.url = some st.url)
    (hfac : ctx.factory st.url st.method = Except.ok resp)
    (ht : redirectTargetOf resp = some loc)
    (hres : resolveLocation st.url loc = some nextUrl)
    (hfresh : ¬ nextUrl ∈ st.url :: st.visited) :
    runHop ctx st = HopStep.redirect (hopRecordOf ctx st st.url resp)
      (eventsOf ctx st st.url resp) (st.url, st.method)
      { url := nextUrl,
        method := (redirectMethodBody ctx.origMethod resp.status st.method st.body).1,
        body := (redirectMethodBody ctx.origMethod resp.status st.method st.body).2,
        firstHop := false, visited := st.url :: st.visited,
        hsts := hstsAfterOf st st.url resp, jar := jarAfterOf st st.url resp } := by
  unfold runHop
  rw [hup, hreq]
  dsimp only
  rw [hfac]
  dsimp only
  rw [ht]
  dsimp only
  rw [hres]
  dsimp only
  rw [if_neg hfresh]

lemma runHop_cases (ctx : LoadCtx) (st : LoopState) :
    (∀ out, runHop ctx st = HopStep.done out →
       (∀ h ∈ out.trace.hops,
          h.method = st.method ∧ h.descriptorBody = st.body ∧
            h.sentBody = (if st.firstHop then st.body else none) ∧
            h.headers =
              assembleHeaders ctx.origHeaders st.jar h.url h.method h.descriptorBody
                ctx.userAgent) ∧
       out.trace.events =
         (if ctx.hasSink then hopEvents ctx.origHeaders out.trace.hops else []) ∧
       out.trace.hops.length ≤ 1) ∧
    (∀ hop ev cr next, runHop ctx st = HopStep.redirect hop ev cr next →
       hop.method = st.method ∧ hop.descriptorBody = st.body ∧
         hop.sentBody = (if st.firstHop then st.body else none) ∧
         hop.headers =
           assembleHeaders ctx.origHeaders st.jar hop.url hop.method hop.descriptorBody
             ctx.userAgent ∧
         ev = (if ctx.hasSink then hopEvents ctx.origHeaders [hop] else []) ∧
         next.firstHop = false) := by
  constructor
  · intro out hout
    unfold runHop at hout
    split at hout
    · cases hout
      simp [hopEvents]
    · split at hout
      · cases hout
        simp [hopEvents]
      · split at hout
        · cases hout
          simp [singleHopTraceOf, hopRecordOf, eventsOf, hopEvents]
        · split at hout
          · cases hout
            simp [singleHopTraceOf, hopRecordOf, eventsOf, hopEvents]
          · split at hout
            · cases hout
              simp [singleHopTraceOf, hopRecordOf, eventsOf, hopEvents]
            · exact HopStep.noConfusion hout
  · intro hop ev cr next hout
    unfold runHop at hout
    split at hout
    · exact HopStep.noConfusion hout
    · split at hout
      · exact HopStep.noConfusion hout
      · split at hout
        · exact HopStep.noConfusion hout
        · split at hout
          · exact HopStep.noConfusion hout
          · split at hout
            · exact HopStep.noConfusion hout
            · injection hout with h1 h2 h3 h4
              subst h1
              subst h2
              subst h4
              simp [hopRecordOf, eventsOf, hopEvents]
lemma loadLoop_hops_bound (ctx : LoadCtx) :
    ∀ (fuel : Nat) (st : LoopState), (loadLoop ctx st fuel).trace.hops.length ≤ fuel + 1 := by
  intro fuel
  induction fuel with
  | zero =>
      intro st
      cases hr : runHop ctx st with
      | done out =>
          rw [loadLoop_done_any ctx st 0 out hr]
          exact ((runHop_cases ctx st).1 out hr).2.2
      | redirect hop ev cr next =>
          simp [loadLoop, hr]
  | succ n ih =>
      intro st
      cases hr : runHop ctx st with
      | done out =>
          rw [loadLoop_done_any ctx st (n + 1) out hr]
          exact le_trans ((runHop_cases ctx st).1 out hr).2.2 (by omega)
      | redirect hop ev cr next =>
          have hnext := ih next
          simp only [loadLoop, hr, List.length_cons]
          omega

lemma loadLoop_sent_none (ctx : LoadCtx) :
    ∀ (fuel : Nat) (st : LoopState), st.firstHop = false →
      ∀ h ∈ (loadLoop ctx st fuel).trace.hops, h.sentBody = none := by
  intro fuel
  induction fuel with
  | zero =>
      intro st hfh h hmem
      cases hr : runHop ctx st with
      | done out =>
          rw [loadLoop_done_any ctx st 0 out hr] at hmem
          have hf := ((runHop_cases ctx st).1 out hr).1 h hmem
          rw [hf.2.2.1, hfh]
          rfl
      | redirect hop ev cr next =>
          have hf := (runHop_cases ctx st).2 hop ev cr next hr
          simp only [loadLoop, hr] at hmem
          simp at hmem
          subst hmem
          rw [hf.2.2.1, hfh]
          rfl
  | succ n ih =>
      intro st hfh h hmem
      cases hr : runHop ctx st with
      | done out =>
          rw [loadLoop_done_any ctx st (n + 1) out hr] at hmem
          have hf := ((runHop_cases ctx st).1 out hr).1 h hmem
          rw [hf.2.2.1, hfh]
          rfl
      | redirect hop ev cr next =>
          simp only [loadLoop, hr, List.mem_cons] at hmem
          have hf := (runHop_cases ctx st).2 hop ev cr next hr
          rcases hmem with hmem | hmem
          · subst hmem
            rw [hf.2.2.1, hfh]
            rfl
          · exact ih next hf.2.2.2.2.2 h hmem

lemma loadLoop_headers_shape (ctx : LoadCtx) :
    ∀ (fuel : Nat) (st : LoopState), ∀ h ∈ (loadLoop ctx st fuel).trace.hops,
      ∃ jar0, h.headers =
        assembleHeaders ctx.origHeaders jar0 h.url h.method h.descriptorBody ctx.userAgent := by
  intro fuel
  induction fuel with
  | zero =>
      intro st h hmem
      cases hr : runHop ctx st with
      | done out =>
          rw [loadLoop_done_any ctx st 0 out hr] at hmem
          exact ⟨st.jar, (((runHop_cases ctx st).1 out hr).1 h hmem).2.2.2⟩
      | redirect hop ev cr next =>
          have hf := (runHop_cases ctx st).2 hop ev cr next hr
          simp only [loadLoop, hr] at hmem
          simp at hmem
          subst hmem
          exact ⟨st.jar, hf.2.2.2.1⟩
  | succ n ih =>
      intro st h hmem
      cases hr : runHop ctx st with
      | done out =>
          rw [loadLoop_done_any ctx st (n + 1) out hr] at hmem
          exact ⟨st.jar, (((runHop_cases ctx st).1 out hr).1 h hmem).2.2.2⟩
      | redirect hop ev cr next =>
          have hf := (runHop_cases ctx st).2 hop ev cr next hr
          simp only [loadLoop, hr, List.mem_cons] at hmem
          rcases hmem with hmem | hmem
          · subst hmem
            exact ⟨st.jar, hf.2.2.2.1⟩
          · exact ih next h hmem

lemma loadLoop_events_pairs (ctx : LoadCtx) (hsink : ctx.hasSink = true) :
    ∀ (fuel : Nat) (st : LoopState),
      (loadLoop ctx st fuel).trace.events =
        hopEvents ctx.origHeaders (loadLoop ctx st fuel).trace.hops := by
  intro fuel
  induction fuel with
  | zero =>
      intro st
      cases hr : runHop ctx st with
      | done out =>
          rw [loadLoop_done_any ctx st 0 out hr]
          rw [((runHop_cases ctx st).1 out hr).2.1, if_pos hsink]
      | redirect hop ev cr next =>
          have hf := (runHop_cases ctx st).2 hop ev cr next hr
          simp only [loadLoop, hr]
          rw [hf.2.2.2.2.1, if_pos hsink]
  | succ n ih =>
      intro st
      cases hr : runHop ctx st with
      | done out =>
          rw [loadLoop_done_any ctx st (n + 1) out hr]
          rw [((runHop_cases ctx st).1 out hr).2.1, if_pos hsink]
      | redirect hop ev cr next =>
          have hf := (runHop_cases ctx st).2 hop ev cr next hr
          simp only [loadLoop, hr]
          rw [hf.2.2.2.2.1, if_pos hsink, ih next]
          simp [hopEvents]

lemma loadLoop_head_record (ctx : LoadCtx) (st : LoopState) (fuel : Nat) (resp : Response)
    (hup : upgradeUrl st.hsts st.url = st.url)
    (hreq : requestUrlFor st.url = some st.url)
    (hfac : ctx.factory st.url st.method = Except.ok resp) :
    ((loadLoop ctx st fuel).trace.hops.head?).map (fun h => (h.method, h.descriptorBody)) =
      some (st.method, st.body) := by
  cases ht : redirectTargetOf resp with
  | none =>
      rw [loadLoop_done_any ctx st fuel _ (runHop_terminal ctx st resp hup hreq hfac ht)]
      simp [singleHopTraceOf, hopRecordOf]
  | some loc =>
      cases hres : resolveLocation st.url loc with
      | none =>
          rw [loadLoop_done_any ctx st fuel _
            (runHop_invalid_location ctx st resp loc hup hreq hfac ht hres)]
          simp [singleHopTraceOf, hopRecordOf]
      | some nextUrl =>
          by_cases hmem : nextUrl ∈ st.url :: st.visited
          · rw [loadLoop_done_any ctx st fuel _
              (runHop_loop ctx st resp loc nextUrl hup hreq hfac ht hres hmem)]
            simp [singleHopTraceOf, hopRecordOf]
          · have hr := runHop_redirect ctx st resp loc nextUrl hup hreq hfac ht hres hmem
            cases fuel with
            | zero => simp [loadLoop, hr, hopRecordOf]
            | succ n => simp [loadLoop, hr, hopRecordOf]
lemma upgradeUrl_not_http (l : HstsList) (u : Url) (h : ¬ u.scheme = "http") :
    upgradeUrl l u = u := by
  unfold upgradeUrl
  rw [if_neg]
  rintro ⟨h1, _⟩
  exact h h1

lemma upgradeUrl_not_secure (l : HstsList) (u : Url) (h : isHostSecure l u.host = false) :
    upgradeUrl l u = u := by
  unfold upgradeUrl
  rw [if_neg]
  rintro ⟨_, h2⟩
  rw [h] at h2
  simp at h2

lemma requestUrlFor_of_supported (u : Url) (h : u.scheme = "http" ∨ u.scheme = "https") :
    requestUrlFor u = some u := by
  unfold requestUrlFor
  have hvs : ¬ u.scheme = "view-source" := by
    rcases h with h | h <;> rw [h] <;> decide
  rw [if_neg hvs, if_pos]
  unfold schemeOk
  rcases h with h | h <;> rw [h] <;> decide

lemma requestUrlFor_none_not_http (u : Url) (h : requestUrlFor u = none) :
    ¬ u.scheme = "http" := by
  intro hh
  rw [requestUrlFor_of_supported u (Or.inl hh)] at h
  exact Option.noConfusion h

lemma isHostSecure_record_self (l : HstsList) (host v : String)
    (hma : (parseMaxAge v).isSome = true) :
    isHostSecure (recordFromHeader l host v true) host = true := by
  cases hp : parseMaxAge v with
  | none =>
      rw [hp] at hma
      simp at hma
  | some n =>
      simp only [recordFromHeader, hp, if_true]
      simp [isHostSecure]

lemma head?_mem {α : Type} (l : List α) (a : α) (h : l.head? = some a) : a ∈ l := by
  cases l with
  | nil => cases h
  | cons x t =>
      simp at h
      subst h
      exact List.mem_cons_self x t

lemma loadLoop_first_sent (ctx : LoadCtx) (fuel : Nat) (st : LoopState) :
    ∀ h, (loadLoop ctx st fuel).trace.hops.head? = some h →
      h.sentBody = (if st.firstHop then st.body else none) := by
  intro h hh
  cases fuel with
  | zero =>
      cases hr : runHop ctx st with
      | done out =>
          rw [loadLoop_done_any ctx st 0 out hr] at hh
          exact (((runHop_cases ctx st).1 out hr).1 h (head?_mem _ _ hh)).2.2.1
      | redirect hop ev cr next =>
          have hf := (runHop_cases ctx st).2 hop ev cr next hr
          simp only [loadLoop, hr] at hh
          simp at hh
          subst hh
          exact hf.2.2.1
  | succ n =>
      cases hr : runHop ctx st with
      | done out =>
          rw [loadLoop_done_any ctx st (n + 1) out hr] at hh
          exact (((runHop_cases ctx st).1 out hr).1 h (head?_mem _ _ hh)).2.2.1
      | redirect hop ev cr next =>
          have hf := (runHop_cases ctx st).2 hop ev cr next hr
          simp only [loadLoop, hr] at hh
          simp at hh
          subst hh
          exact hf.2.2.1

lemma loadLoop_tail_sent_none (ctx : LoadCtx) (fuel : Nat) (st : LoopState) :
    ∀ h ∈ (loadLoop ctx st fuel).trace.hops.tail, h.sentBody = none := by
  intro h hmem
  cases fuel with
  | zero =>
      cases hr : runHop ctx st with
      | done out =>
          rw [loadLoop_done_any ctx st 0 out hr] at hmem
          have hlen := ((runHop_cases ctx st).1 out hr).2.2
          rcases hl : out.trace.hops with _ | ⟨a, t⟩
          · rw [hl] at hmem
            cases hmem
          · rw [hl] at hmem hlen
            cases t with
            | nil => simp at hmem
            | cons b t2 =>
                simp only [List.length_cons] at hlen
                omega
      | redirect hop ev cr next =>
          simp only [loadLoop, hr] at hmem
          simp at hmem
  | succ n =>
      cases hr : runHop ctx st with
      | done out =>
          rw [loadLoop_done_any ctx st (n + 1) out hr] at hmem
          have hlen := ((runHop_cases ctx st).1 out hr).2.2
          rcases hl : out.trace.hops with _ | ⟨a, t⟩
          · rw [hl] at hmem
            cases hmem
          · rw [hl] at hmem hlen
            cases t with
            | nil => simp at hmem
            | cons b t2 =>
                simp only [List.length_cons] at hlen
                omega
      | redirect hop ev cr next =>
          have hf := (runHop_cases ctx st).2 hop ev cr next hr
          simp only [loadLoop, hr, List.tail_cons] at hmem
          exact loadLoop_sent_none ctx n next hf.2.2.2.2.2 h hmem

/-! ### Concrete fixtures mirroring the repository's unit tests -/

/-- Fixture: `http://mozilla.com`. -/
def urlHttpCom : Url := ⟨"http", "mozilla.com", "/"⟩

/-- Fixture: `http://mozilla.org`. -/
def urlHttpOrg : Url := ⟨"http", "mozilla.org", "/"⟩

/-- Fixture: `https://mozilla.org`. -/
def urlHttpsOrg : Url := ⟨"https", "mozilla.org", "/"⟩

/-- Fixture: `ftp://not-supported`. -/
def urlFtp : Url := ⟨"ftp", "not-supported", "/"⟩

/-- Fixture: `view-source:ftp://not-supported`. -/
def urlViewSourceFtp : Url := ⟨"view-source", "", "ftp://not-supported"⟩

/-- A codec whose transforms are the identity, for witnesses. -/
def idCodec : Codec := ⟨id, id⟩

/-- A 301 response redirecting to `loc`. -/
def redirectResponse (loc : String) : Response := ⟨301, [("Location", loc)], []⟩

/-- A 200 response with the given body. -/
def okResponse (body : List Nat) : Response :=
  ⟨200, [("Content-Length", toString body.length)], body⟩

/-- A factory that always answers with the same response. -/
def constFactory (resp : Response) : Factory := fun _ _ => Except.ok resp

/-- The factory of `test_load_errors_when_there_a_redirect_loop`:
mozilla.com and mozilla.org redirect to each other forever. -/
def loopFactory : Factory := fun u _ =>
  if u.host = "mozilla.com" then Except.ok (redirectResponse "http://mozilla.org")
  else Except.ok (redirectResponse "http://mozilla.com")

/-- The load context of the redirect-loop fixture. -/
def ctxLoop : LoadCtx := ⟨loopFactory, idCodec, "Test-agent", [], Method.get, false⟩

/-- The loop state after the first hop of the redirect-loop fixture. -/
def stLoop2 : LoopState := ⟨urlHttpOrg, Method.get, none, false, [urlHttpCom], [], []⟩

/-- The initial loop state of the redirect-loop fixture. -/
def stLoop0 : LoopState := ⟨urlHttpCom, Method.get, none, true, [], [], []⟩

/-! ### The claims -/

/-- Claim C1: for every load whose redirect chain resolves a `Location` to a
URL already visited in the current chain (such as A redirecting to B and B
redirecting back to A), `load` returns `InvalidRedirect(url, "redirect
loop")` rather than looping forever — stated for an arbitrary hop of the
(always terminating) redirect loop. -/
theorem load_redirect_loop_errors (ctx : LoadCtx) (st : LoopState) (fuel : Nat)
    (resp : Response) (loc : String) (nextUrl : Url)
    (hup : upgradeUrl st.hsts st.url = st.url)
    (hreq : requestUrlFor st.url = some st.url)
    (hfac : ctx.factory st.url st.method = Except.ok resp)
    (hst : isRedirectStatus resp.status = true)
    (hloc : getHeader resp.headers "Location" = some loc)
    (hres : resolveLocation st.url loc = some nextUrl)
    (hmem : nextUrl ∈ st.url :: st.visited) :
    (loadLoop ctx st fuel).result =
      Except.error (LoadError.InvalidRedirect st.url "redirect loop") := by
  have ht : redirectTargetOf resp = some loc := by
    unfold redirectTargetOf
    rw [hst]
    simpa using hloc
  rw [loadLoop_done_any ctx st fuel _
    (runHop_loop ctx st resp loc nextUrl hup hreq hfac ht hres hmem)]

/-- Witness for C1: the second hop of the `A→B→A` chain of
`test_load_errors_when_there_a_redirect_loop` fails with the redirect-loop
error. -/
theorem load_redirect_loop_errors_witness :
    (loadLoop ctxLoop stLoop2 49).result =
      Except.error (LoadError.InvalidRedirect urlHttpOrg "redirect loop") :=
  load_redirect_loop_errors ctxLoop stLoop2 49 (redirectResponse "http://mozilla.com")
    "http://mozilla.com" urlHttpCom rfl rfl rfl (by decide) rfl rfl (by decide)

/-- Claim C2: a hop that wants to follow a fresh redirect with no hops left
fails with `MaxRedirects` carrying the last URL of the chain, and the loop
never performs more than `fuel + 1` hops. -/
theorem load_max_redirects_bounded :
    (∀ (ctx : LoadCtx) (st : LoopState) (resp : Response) (loc : String) (nextUrl : Url),
       upgradeUrl st.hsts st.url = st.url →
       requestUrlFor st.url = some st.url →
       ctx.factory st.url st.method = Except.ok resp →
       isRedirectStatus resp.status = true →
       getHeader resp.headers "Location" = some loc →
       resolveLocation st.url loc = some nextUrl →
       ¬ nextUrl ∈ st.url :: st.visited →
       (loadLoop ctx st 0).result = Except.error (LoadError.MaxRedirects st.url)) ∧
    (∀ (ctx : LoadCtx) (fuel : Nat) (st : LoopState),
       (loadLoop ctx st fuel).trace.hops.length ≤ fuel + 1) := by
  constructor
  · intro ctx st resp loc nextUrl hup hreq hfac hst hloc hres hfresh
    have ht : redirectTargetOf resp = some loc := by
      unfold redirectTargetOf
      rw [hst]
      simpa using hloc
    have hr := runHop_redirect ctx st resp loc nextUrl hup hreq hfac ht hres hfresh
    simp [loadLoop, hr, hopRecordOf]
  · exact fun ctx => loadLoop_hops_bound ctx

/-- Witness for C2: with no redirects left, the first hop of the
redirect-loop fixture fails with `MaxRedirects http://mozilla.com`. -/
theorem load_max_redirects_bounded_witness :
    (loadLoop ctxLoop stLoop0 0).result =
      Except.error (LoadError.MaxRedirects urlHttpCom) :=
  load_max_redirects_bounded.1 ctxLoop stLoop0 (redirectResponse "http://mozilla.org")
    "http://mozilla.org" urlHttpOrg rfl rfl rfl (by decide) rfl rfl (by decide)

/-- Claim C3: on a followed redirect, when the status is 303, or 301/302
with original method POST, the next hop's request uses method GET and no
body; for any other redirect status (307/308 in particular) the next hop
preserves the current method and body exactly. -/
theorem load_redirect_rewrites_method_and_body (ctx : LoadCtx) (st : LoopState) (m : Nat)
    (resp resp2 : Response) (loc : String) (nextUrl : Url)
    (hup : upgradeUrl st.hsts st.url = st.url)
    (hreq : requestUrlFor st.url = some st.url)
    (hfac : ctx.factory st.url st.method = Except.ok resp)
    (hst : isRedirectStatus resp.status = true)
    (hloc : getHeader resp.headers "Location" = some loc)
    (hres : resolveLocation st.url loc = some nextUrl)
    (hfresh : ¬ nextUrl ∈ st.url :: st.visited)
    (hnext : nextUrl.scheme = "https")
    (hfac2 : ∀ mth, ctx.factory nextUrl mth = Except.ok resp2) :
    ((loadLoop ctx st (m + 1)).trace.hops.get? 1).map (fun h => (h.method, h.descriptorBody)) =
      some
        (if resp.status = 303 ∨
            ((resp.status = 301 ∨ resp.status = 302) ∧ ctx.origMethod = Method.post)
         then (Method.get, none)
         else (st.method, st.body)) := by
  have ht : redirectTargetOf resp = some loc := by
    unfold redirectTargetOf
    rw [hst]
    simpa using hloc
  have hr := runHop_redirect ctx st resp loc nextUrl hup hreq hfac ht hres hfresh
  have hh := loadLoop_head_record ctx
      ⟨nextUrl, (redirectMethodBody ctx.origMethod resp.status st.method st.body).1,
       (redirectMethodBody ctx.origMethod resp.status st.method st.body).2,
       false, st.url :: st.visited, hstsAfterOf st st.url resp, jarAfterOf st st.url resp⟩
      m resp2
      (upgradeUrl_not_http _ _ (by rw [hnext]; decide))
      (requestUrlFor_of_supported nextUrl (Or.inr hnext))
      (hfac2 _)
  simp only [loadLoop, hr]
  rw [show ∀ (a : HopRecord) (l : List HopRecord), (a :: l).get? 1 = l.get? 0 from
      fun a l => rfl]
  rw [List.get?_zero, hh]
  by_cases hc : resp.status = 303 ∨
      ((resp.status = 301 ∨ resp.status = 302) ∧ ctx.origMethod = Method.post)
  · simp [redirectMethodBody, hc]
  · simp [redirectMethodBody, hc]

/-- The factory of the POST-redirect fixtures: mozilla.com answers with a
redirect to `https://mozilla.org`, which answers with content. -/
def postRedirectFactory : Factory := fun u _ =>
  if u.host = "mozilla.com" then Except.ok (redirectResponse "https://mozilla.org")
  else Except.ok (okResponse [7])

/-- The load context of the POST-redirect fixture (original method POST). -/
def ctxPost : LoadCtx := ⟨postRedirectFactory, idCodec, "Test-agent", [], Method.post, false⟩

/-- The initial loop state of the POST-redirect fixture, carrying a body. -/
def stPost : LoopState := ⟨urlHttpCom, Method.post, some [9, 9], true, [], [], []⟩

/-- Witness for C3: a POST with a body answered by a 301 redirect is
followed by a hop whose method is GET and whose body is gone. -/
theorem load_redirect_rewrites_method_and_body_witness :
    ((loadLoop ctxPost stPost (3 + 1)).trace.hops.get? 1).map
        (fun h => (h.method, h.descriptorBody)) =
      some
        (if (301 : Nat) = 303 ∨
            (((301 : Nat) = 301 ∨ (301 : Nat) = 302) ∧ ctxPost.origMethod = Method.post)
         then (Method.get, none)
         else (stPost.method, stPost.body)) :=
  load_redirect_rewrites_method_and_body ctxPost stPost 3
    (redirectResponse "https://mozilla.org") (okResponse [7]) "https://mozilla.org" urlHttpsOrg
    rfl rfl rfl (by decide) rfl rfl (by decide) rfl (fun mth => rfl)

/-- Claim C4: the request body (when present) is passed to `send` only on
the first hop; on every later hop of any redirect chain, `send` gets
`none`. -/
theorem load_sends_body_only_on_first_hop (ld : LoadData) (hsts : HstsList) (jar : CookieJar)
    (hasSink : Bool) (factory : Factory) (ua : String) (codec : Codec) (maxRedirects : Nat) :
    (∀ h, (load ld hsts jar hasSink factory ua codec maxRedirects).trace.hops.head? = some h →
       h.sentBody = ld.data) ∧
    (∀ h ∈ (load ld hsts jar hasSink factory ua codec maxRedirects).trace.hops.tail,
       h.sentBody = none) := by
  constructor
  · intro h hh
    exact (loadLoop_first_sent ⟨factory, codec, ua, ld.headers, ld.method, hasSink⟩ maxRedirects
      ⟨ld.url, ld.method, ld.data, true, [], hsts, jar⟩ h hh).trans rfl
  · intro h hmem
    exact loadLoop_tail_sent_none ⟨factory, codec, ua, ld.headers, ld.method, hasSink⟩ maxRedirects
      ⟨ld.url, ld.method, ld.data, true, [], hsts, jar⟩ h hmem

/-- The descriptor of `test_load_doesnt_send_request_body_on_any_redirect`:
a POST to mozilla.com with a body, redirected to mozilla.org. -/
def ldPostBody : LoadData := ⟨urlHttpCom, Method.post, [], some [9, 9]⟩

/-- The first hop record of the body-on-redirect fixture. -/
def c4Hop1 : HopRecord :=
  ((load ldPostBody [] [] false postRedirectFactory "Test-agent" idCodec 5).trace.hops.head?).getD
    default

/-- The second hop record of the body-on-redirect fixture. -/
def c4Hop2 : HopRecord :=
  ((load ldPostBody [] [] false postRedirectFactory "Test-agent" idCodec 5).trace.hops.get? 1).getD
    default

/-- Witness for C4: in the body-on-redirect fixture the body is sent on the
first hop and not on the second. -/
theorem load_sends_body_only_on_first_hop_witness :
    c4Hop1.sentBody = some [9, 9] ∧ c4Hop2.sentBody = none :=
  ⟨(load_sends_body_only_on_first_hop ldPostBody [] [] false postRedirectFactory "Test-agent"
      idCodec 5).1 c4Hop1 (by decide),
   (load_sends_body_only_on_first_hop ldPostBody [] [] false postRedirectFactory "Test-agent"
      idCodec 5).2 c4Hop2 (by decide)⟩

/-- Claim C5: a load whose URL scheme is neither http nor https — including
a `view-source:` URL whose inner scheme is neither — fails with
`UnsupportedScheme` and the request factory's `create` is never invoked,
even on the very first hop. -/
theorem load_unsupported_scheme_no_create (ld : LoadData) (hsts : HstsList) (jar : CookieJar)
    (hasSink : Bool) (factory : Factory) (ua : String) (codec : Codec) (maxRedirects : Nat)
    (h : requestUrlFor ld.url = none) :
    (load ld hsts jar hasSink factory ua codec maxRedirects).result =
      Except.error (LoadError.UnsupportedScheme ld.url) ∧
    (load ld hsts jar hasSink factory ua codec maxRedirects).trace.creates = [] := by
  have hup : upgradeUrl hsts ld.url = ld.url :=
    upgradeUrl_not_http hsts ld.url (requestUrlFor_none_not_http ld.url h)
  have hr := runHop_unsupported ⟨factory, codec, ua, ld.headers, ld.method, hasSink⟩
      ⟨ld.url, ld.method, ld.data, true, [], hsts, jar⟩
      (by dsimp only; rw [hup]; exact h)
  rw [show load ld hsts jar hasSink factory ua codec maxRedirects =
        loadLoop ⟨factory, codec, ua, ld.headers, ld.method, hasSink⟩
          ⟨ld.url, ld.method, ld.data, true, [], hsts, jar⟩ maxRedirects from rfl,
      loadLoop_done_any _ _ maxRedirects _ hr]
  dsimp only
  rw [hup]
  exact ⟨rfl, rfl⟩

/-- A factory that refuses to connect, as in the unsupported-scheme tests. -/
def dontConnectFactory : Factory := fun u _ =>
  Except.error (LoadError.Connection u "should not have connected")

/-- Witness for C5: `ftp://not-supported` and `view-source:ftp://not-supported`
both fail with `UnsupportedScheme` without a factory invocation. -/
theorem load_unsupported_scheme_no_create_witness :
    ((load ⟨urlFtp, Method.get, [], none⟩ [] [] false dontConnectFactory "Test-agent" idCodec
          50).result = Except.error (LoadError.UnsupportedScheme urlFtp) ∧
      (load ⟨urlFtp, Method.get, [], none⟩ [] [] false dontConnectFactory "Test-agent" idCodec
          50).trace.creates = []) ∧
    ((load ⟨urlViewSourceFtp, Method.get, [], none⟩ [] [] false dontConnectFactory "Test-agent"
          idCodec 50).result = Except.error (LoadError.UnsupportedScheme urlViewSourceFtp) ∧
      (load ⟨urlViewSourceFtp, Method.get, [], none⟩ [] [] false dontConnectFactory "Test-agent"
          idCodec 50).trace.creates = []) :=
  ⟨load_unsupported_scheme_no_create ⟨urlFtp, Method.get, [], none⟩ [] [] false dontConnectFactory
      "Test-agent" idCodec 50 rfl,
   load_unsupported_scheme_no_create ⟨urlViewSourceFtp, Method.get, [], none⟩ [] [] false
      dontConnectFactory "Test-agent" idCodec 50 rfl⟩

/-- Claim C6: a response with a valid `max-age` in its
`Strict-Transport-Security` header makes `isHostSecure(host)` true
afterwards iff the response's origin was HTTPS; on a plain-HTTP response
the HSTS state is left unchanged. -/
theorem load_hsts_update_iff_https_origin (ld : LoadData) (hsts : HstsList) (jar : CookieJar)
    (hasSink : Bool) (factory : Factory) (ua : String) (codec : Codec) (maxRedirects : Nat)
    (resp : Response) (sv : String)
    (hscheme : ld.url.scheme = "http" ∨ ld.url.scheme = "https")
    (hsec : isHostSecure hsts ld.url.host = false)
    (hfac : factory ld.url ld.method = Except.ok resp)
    (hhdr : getHeader resp.headers "Strict-Transport-Security" = some sv)
    (hma : (parseMaxAge sv).isSome = true)
    (hterm : isRedirectStatus resp.status = false) :
    isHostSecure (load ld hsts jar hasSink factory ua codec maxRedirects).trace.hsts
        ld.url.host = decide (ld.url.scheme = "https") ∧
    (ld.url.scheme = "http" →
      (load ld hsts jar hasSink factory ua codec maxRedirects).trace.hsts = hsts) := by
  have hup : upgradeUrl hsts ld.url = ld.url := upgradeUrl_not_secure hsts ld.url hsec
  have hreq : requestUrlFor ld.url = some ld.url := requestUrlFor_of_supported ld.url hscheme
  have ht : redirectTargetOf resp = none := by
    unfold redirectTargetOf
    rw [hterm]
    rfl
  have hr := runHop_terminal ⟨factory, codec, ua, ld.headers, ld.method, hasSink⟩
      ⟨ld.url, ld.method, ld.data, true, [], hsts, jar⟩ resp hup hreq hfac ht
  rw [show load ld hsts jar hasSink factory ua codec maxRedirects =
        loadLoop ⟨factory, codec, ua, ld.headers, ld.method, hasSink⟩
          ⟨ld.url, ld.method, ld.data, true, [], hsts, jar⟩ maxRedirects from rfl,
      loadLoop_done_any _ _ maxRedirects _ hr]
  dsimp only [singleHopTraceOf]
  simp only [hstsAfterOf, hhdr]
  rcases hscheme with hs | hs
  · have hd : decide (ld.url.scheme = "https") = false := by
      rw [hs]
      decide
    rw [hd]
    constructor
    · exact hsec
    · intro _
      rfl
  · have hd : decide (ld.url.scheme = "https") = true := by
      rw [hs]
      decide
    rw [hd]
    constructor
    · exact isHostSecure_record_self hsts ld.url.host sv hma
    · intro hcontr
      rw [hs] at hcontr
      exact absurd hcontr (by decide)

/-- The response of the HSTS tests: a 200 carrying
`Strict-Transport-Security: max-age=31536000`. -/
def stsResponse : Response := ⟨200, [("Strict-Transport-Security", "max-age=31536000")], [1]⟩

/-- The descriptor of the HTTPS HSTS fixture. -/
def ldHttpsCom : LoadData := ⟨⟨"https", "mozilla.com", "/"⟩, Method.get, [], none⟩

/-- The descriptor of the plain-HTTP HSTS fixture. -/
def ldHttpCom : LoadData := ⟨urlHttpCom, Method.get, [], none⟩

/-- Witness for C6: the HTTPS load records mozilla.com as secure; the same
response over plain HTTP leaves the empty HSTS list unchanged. -/
theorem load_hsts_update_iff_https_origin_witness :
    (isHostSecure (load ldHttpsCom [] [] false (constFactory stsResponse) "Test-agent" idCodec
          5).trace.hsts ldHttpsCom.url.host = decide (ldHttpsCom.url.scheme = "https") ∧
      (ldHttpsCom.url.scheme = "http" →
        (load ldHttpsCom [] [] false (constFactory stsResponse) "Test-agent" idCodec
            5).trace.hsts = [])) ∧
    (isHostSecure (load ldHttpCom [] [] false (constFactory stsResponse) "Test-agent" idCodec
          5).trace.hsts ldHttpCom.url.host = decide (ldHttpCom.url.scheme = "https") ∧
      (ldHttpCom.url.scheme = "http" →
        (load ldHttpCom [] [] false (constFactory stsResponse) "Test-agent" idCodec
            5).trace.hsts = [])) :=
  ⟨load_hsts_update_iff_https_origin ldHttpsCom [] [] false (constFactory stsResponse)
      "Test-agent" idCodec 5 stsResponse "max-age=31536000" (Or.inr rfl) rfl rfl rfl (by decide)
      (by decide),
   load_hsts_update_iff_https_origin ldHttpCom [] [] false (constFactory stsResponse)
      "Test-agent" idCodec 5 stsResponse "max-age=31536000" (Or.inl rfl) rfl rfl rfl (by decide)
      (by decide)⟩

/-- Claim C7: for every request whose method is not GET or HEAD and whose
caller did not set `Content-Length`, the request carries a `Content-Length`
header equal to the decimal length of its body, `"0"` when the body is
empty or absent. -/
theorem load_content_length_default (ld : LoadData) (hsts : HstsList) (jar : CookieJar)
    (hasSink : Bool) (factory : Factory) (ua : String) (codec : Codec) (maxRedirects : Nat)
    (hcl : hasHeader ld.headers "Content-Length" = false) :
    ∀ h ∈ (load ld hsts jar hasSink factory ua codec maxRedirects).trace.hops,
      ¬ (h.method = Method.get ∨ h.method = Method.head) →
      getHeader h.headers "Content-Length" =
        some (toString ((h.descriptorBody.getD []).length)) := by
  intro h hmem hmethod
  obtain ⟨jar0, hshape⟩ := loadLoop_headers_shape
    ⟨factory, codec, ua, ld.headers, ld.method, hasSink⟩ maxRedirects
    ⟨ld.url, ld.method, ld.data, true, [], hsts, jar⟩ h hmem
  dsimp only at hshape
  rw [hshape, assembleHeaders_CL ld.headers jar0 h.url h.method h.descriptorBody ua hcl]
  cases hb : h.descriptorBody with
  | some data => rfl
  | none =>
      dsimp only
      rw [if_neg hmethod]
      rfl

/-- The descriptor of
`test_load_when_request_is_not_get_or_head_and_there_is_no_body_…`:
a POST with no body and no caller headers. -/
def ldPostNoBody : LoadData := ⟨urlHttpCom, Method.post, [], none⟩

/-- The first hop record of the bodyless-POST fixture. -/
def c7Hop1 : HopRecord :=
  ((load ldPostNoBody [] [] false (constFactory (okResponse [7])) "Test-agent" idCodec
      5).trace.hops.head?).getD default

/-- Witness for C7: the bodyless POST is sent with `Content-Length: 0`. -/
theorem load_content_length_default_witness :
    getHeader c7Hop1.headers "Content-Length" =
      some (toString ((c7Hop1.descriptorBody.getD []).length)) :=
  load_content_length_default ldPostNoBody [] [] false (constFactory (okResponse [7]))
    "Test-agent" idCodec 5 rfl c7Hop1 (by decide) (by decide)

/-- Claim C10: every hop that carries a body is sent with a
`Content-Length` equal to the decimal length of that body, with no
condition on the method — the GET-with-body edge the spec's header table
does not promise but the repository's test pins. -/
theorem load_content_length_with_body_get (ld : LoadData) (hsts : HstsList) (jar : CookieJar)
    (hasSink : Bool) (factory : Factory) (ua : String) (codec : Codec) (maxRedirects : Nat)
    (hcl : hasHeader ld.headers "Content-Length" = false) :
    ∀ h ∈ (load ld hsts jar hasSink factory ua codec maxRedirects).trace.hops,
      ∀ data, h.descriptorBody = some data →
        getHeader h.headers "Content-Length" = some (toString data.length) := by
  intro h hmem data hb
  obtain ⟨jar0, hshape⟩ := loadLoop_headers_shape
    ⟨factory, codec, ua, ld.headers, ld.method, hasSink⟩ maxRedirects
    ⟨ld.url, ld.method, ld.data, true, [], hsts, jar⟩ h hmem
  dsimp only at hshape
  rw [hshape, hb, assembleHeaders_CL ld.headers jar0 h.url h.method (some data) ua hcl]

/-- The descriptor of the GET-with-body edge of
`test_load_sets_content_length_to_length_of_request_body`. -/
def ldGetBody : LoadData := ⟨urlHttpCom, Method.get, [], some [1, 2, 3]⟩

/-- The first hop record of the GET-with-body fixture. -/
def c10Hop1 : HopRecord :=
  ((load ldGetBody [] [] false (constFactory (okResponse [7])) "Test-agent" idCodec
      5).trace.hops.head?).getD default

/-- Witness for C10: the GET with body `[1, 2, 3]` is sent with
`Content-Length: 3`. -/
theorem load_content_length_with_body_get_witness :
    getHeader c10Hop1.headers "Content-Length" =
      some (toString ([1, 2, 3] : List Nat).length) :=
  load_content_length_with_body_get ldGetBody [] [] false (constFactory (okResponse [7]))
    "Test-agent" idCodec 5 rfl c10Hop1 (by decide) [1, 2, 3] (by decide)

/-- Claim C8: reading the stream returned by `load` for a response whose
body is the gzip (respectively deflate) compression of a plaintext `p`
advertised via `Content-Encoding` yields exactly `p`, for any decompressors
that invert the compressors; any other or absent `Content-Encoding` passes
the body through unchanged. -/
theorem load_content_decoding_roundtrip (codec : Codec) (gz df : List Nat → List Nat)
    (hgz : ∀ x, codec.gzipDecompress (gz x) = x)
    (hdf : ∀ x, codec.deflateDecompress (df x) = x)
    (ld : LoadData) (hsts : HstsList) (jar : CookieJar) (hasSink : Bool) (ua : String)
    (maxRedirects : Nat) (hscheme : ld.url.scheme = "https") :
    (∀ (status : Nat) (hs : Headers) (p : List Nat) (v : String),
       isRedirectStatus status = false →
       getHeader hs "Content-Encoding" = some v → lowerStr v = "gzip" →
       (load ld hsts jar hasSink (constFactory ⟨status, hs, gz p⟩) ua codec
           maxRedirects).result = Except.ok p) ∧
    (∀ (status : Nat) (hs : Headers) (p : List Nat) (v : String),
       isRedirectStatus status = false →
       getHeader hs "Content-Encoding" = some v → lowerStr v = "deflate" →
       (load ld hsts jar hasSink (constFactory ⟨status, hs, df p⟩) ua codec
           maxRedirects).result = Except.ok p) ∧
    (∀ (status : Nat) (hs : Headers) (b : List Nat),
       isRedirectStatus status = false →
       (∀ v, getHeader hs "Content-Encoding" = some v →
          ¬ lowerStr v = "gzip" ∧ ¬ lowerStr v = "deflate") →
       (load ld hsts jar hasSink (constFactory ⟨status, hs, b⟩) ua codec
           maxRedirects).result = Except.ok b) := by
  have hterm : ∀ (resp : Response), isRedirectStatus resp.status = false →
      (load ld hsts jar hasSink (constFactory resp) ua codec maxRedirects).result =
        Except.ok (decodeBody codec resp.headers resp.body) := by
    intro resp hterm
    have hup : upgradeUrl hsts ld.url = ld.url :=
      upgradeUrl_not_http hsts ld.url (by rw [hscheme]; decide)
    have hreq : requestUrlFor ld.url = some ld.url :=
      requestUrlFor_of_supported ld.url (Or.inr hscheme)
    have ht : redirectTargetOf resp = none := by
      unfold redirectTargetOf
      rw [hterm]
      rfl
    have hr := runHop_terminal ⟨constFactory resp, codec, ua, ld.headers, ld.method, hasSink⟩
        ⟨ld.url, ld.method, ld.data, true, [], hsts, jar⟩ resp hup hreq rfl ht
    rw [show load ld hsts jar hasSink (constFactory resp) ua codec maxRedirects =
          loadLoop ⟨constFactory resp, codec, ua, ld.headers, ld.method, hasSink⟩
            ⟨ld.url, ld.method, ld.data, true, [], hsts, jar⟩ maxRedirects from rfl,
        loadLoop_done_any _ _ maxRedirects _ hr]
  refine ⟨?_, ?_, ?_⟩
  · intro status hs p v hst hce hlow
    have hsel : selectEncoding hs = ContentEncoding.gzip := by
      unfold selectEncoding
      rw [hce]
      dsimp only
      rw [if_pos hlow]
    rw [hterm ⟨status, hs, gz p⟩ hst]
    show Except.ok (decodeBody codec hs (gz p)) = Except.ok p
    unfold decodeBody
    rw [hsel]
    dsimp only
    rw [hgz]
  · intro status hs p v hst hce hlow
    have hsel : selectEncoding hs = ContentEncoding.deflate := by
      unfold selectEncoding
      rw [hce]
      dsimp only
      have hnot : ¬ lowerStr v = "gzip" := by
        rw [hlow]
        decide
      rw [if_neg hnot, if_pos hlow]
    rw [hterm ⟨status, hs, df p⟩ hst]
    show Except.ok (decodeBody codec hs (df p)) = Except.ok p
    unfold decodeBody
    rw [hsel]
    dsimp only
    rw [hdf]
  · intro status hs b hst hv
    have hsel : selectEncoding hs = ContentEncoding.identity := by
      unfold selectEncoding
      cases hce : getHeader hs "Content-Encoding" with
      | none => rfl
      | some v =>
          obtain ⟨h1, h2⟩ := hv v hce
          dsimp only
          rw [if_neg h1, if_neg h2]
    rw [hterm ⟨status, hs, b⟩ hst]
    show Except.ok (decodeBody codec hs b) = Except.ok b
    unfold decodeBody
    rw [hsel]

/-- Witness for C8: with the identity codec and compressors, a gzip-encoded
body `[1, 2, 3]` is decoded back to `[1, 2, 3]`. -/
theorem load_content_decoding_roundtrip_witness :
    (load ldHttpsCom [] [] false
        (constFactory ⟨200, [("Content-Encoding", "gzip")], id [1, 2, 3]⟩) "Test-agent" idCodec
        5).result = Except.ok [1, 2, 3] :=
  (load_content_decoding_roundtrip idCodec id id (fun _ => rfl) (fun _ => rfl) ldHttpsCom [] []
      false "Test-agent" 5 rfl).1 200 [("Content-Encoding", "gzip")] [1, 2, 3] "gzip" (by decide)
    rfl rfl

/-- Claim C9: with an event sink present, the devtools channel receives,
per hop and in order, exactly one `httpRequest` event followed by exactly
one `httpResponse` event. -/
theorem load_devtools_event_pairs (ld : LoadData) (hsts : HstsList) (jar : CookieJar)
    (factory : Factory) (ua : String) (codec : Codec) (maxRedirects : Nat) :
    (load ld hsts jar true factory ua codec maxRedirects).trace.events =
      hopEvents ld.headers (load ld hsts jar true factory ua codec maxRedirects).trace.hops :=
  loadLoop_events_pairs ⟨factory, codec, ua, ld.headers, ld.method, true⟩ rfl maxRedirects
    (initState ld hsts jar)
